import Mathlib

/-!
# Verification of the `iced_aw` time-picker overlay and Cupertino button

Shallow embedding of `src/native/overlay/time_picker.rs` and
`src/native/cupertino/cupertino_button.rs` of the `iced_aw` widget crate.

Conventions of the embedding:

* `f32` coordinates are embedded as rationals (`ℚ`); all arithmetic on them in
  the relevant code paths is exact at the inputs we consider.
* `chrono::NaiveTime` is embedded as a record of hour/minute/second naturals,
  with the `chrono` accessors (`hour12`, `with_hour`, `with_minute`,
  `with_second`) defined per the `chrono` documentation.
* The helpers of `core/clock.rs` (`circle_points`, `nearest_radius`) and the
  radius-percentage constants are not part of the sources; they are kept
  abstract as fields of a `ClockExtern` record that the embedded event handler
  is parametrised over. `nearest_point` is modelled from the spec as the index
  of the list point nearest (in Euclidean distance) to the cursor.
* The `iced` canvas cache is modelled by the number of times it has been
  cleared (`clock_cache_clears`), which is enough to express frame conditions.
-/

/-- A 2-D point with rational coordinates (embedding of `iced` `Point`). -/
structure Point where
  x : ℚ
  y : ℚ
deriving DecidableEq, Repr

/-- An axis-aligned rectangle (embedding of `iced` `Rectangle<f32>`). -/
structure Rectangle where
  x : ℚ
  y : ℚ
  width : ℚ
  height : ℚ
deriving DecidableEq, Repr

/-- `Rectangle::contains`: the point lies within the rectangle. -/
def Rectangle.contains (r : Rectangle) (p : Point) : Bool :=
  decide (r.x ≤ p.x ∧ p.x < r.x + r.width ∧ r.y ≤ p.y ∧ p.y < r.y + r.height)

/-- `Rectangle::center`. -/
def Rectangle.center (r : Rectangle) : Point :=
  ⟨r.x + r.width / 2, r.y + r.height / 2⟩

/-- Squared Euclidean distance between two points. -/
def distSq (p q : Point) : ℚ :=
  (p.x - q.x) * (p.x - q.x) + (p.y - q.y) * (p.y - q.y)

/-- Auxiliary fold for `nearest_point`: scans the remaining points (the next
one having index `i`), keeping the index `besti` of the smallest squared
distance `bestd` seen so far (earliest index on ties). -/
def nearestPointAux (c : Point) : List Point → Nat → Nat → ℚ → Nat
  | [], _, besti, _ => besti
  | p :: rest, i, besti, bestd =>
    if distSq p c < bestd then nearestPointAux c rest (i + 1) i (distSq p c)
    else nearestPointAux c rest (i + 1) besti bestd

/-- Modelled from the spec: `core/clock.rs`'s `nearest_point` is not among the
sources; per the spec's angle-to-time description it returns the index of the
point of the list nearest (in Euclidean distance) to the cursor, taking the
earliest such index on ties; `0` on an empty list. -/
def nearest_point (points : List Point) (c : Point) : Nat :=
  match points with
  | [] => 0
  | p :: rest => nearestPointAux c rest 1 0 (distSq p c)

/-- The ring of the clock face nearest to the cursor
(`core::clock::NearestRadius`, declared outside the sources; its variants are
those matched on in `on_event_clock`). -/
inductive NearestRadius where
  | None
  | Period
  | Hour
  | Minute
  | Second
deriving DecidableEq, Repr, Fintype

/-- The external clock geometry of `core/clock.rs`, which is not among the
sources: the radius-percentage constants, the stand-in for `f32::MAX`, and the
functions `circle_points` (the `amount` equally spaced points on the circle of
the given radius and center) and `nearest_radius` (which of the labelled rings
lies nearest to the cursor).  The embedded event handler is parametrised over
this record; the claims constrain it only through explicit hypotheses. -/
structure ClockExtern where
  PERIOD_PERCENTAGE : ℚ
  HOUR_RADIUS_PERCENTAGE : ℚ
  MINUTE_RADIUS_PERCENTAGE : ℚ
  SECOND_RADIUS_PERCENTAGE : ℚ
  HOUR_RADIUS_PERCENTAGE_NO_SECONDS : ℚ
  MINUTE_RADIUS_PERCENTAGE_NO_SECONDS : ℚ
  f32_max : ℚ
  circle_points : ℚ → Point → Nat → List Point
  nearest_radius : List (ℚ × NearestRadius) → Point → Point → NearestRadius

/-- Embedding of `chrono::NaiveTime` restricted to whole seconds: hour,
minute and second fields.  A value is well-formed when `hour < 24`,
`minute < 60`, `second < 60`; operations below preserve this. -/
structure NaiveTime where
  hour : Nat
  minute : Nat
  second : Nat
deriving DecidableEq, Repr

/-- `chrono`'s `Timelike::hour12`: returns `(true, _)` for the PM half of the
day and the hour number in `1..=12`. -/
def NaiveTime.hour12 (t : NaiveTime) : Bool × Nat :=
  (decide (12 ≤ t.hour), if t.hour % 12 = 0 then 12 else t.hour % 12)

/-- `chrono`'s `Timelike::with_hour`: replaces the hour, `none` if out of
range (in `chrono` this is `None`, which the widget code `unwrap`s). -/
def NaiveTime.with_hour (t : NaiveTime) (h : Nat) : Option NaiveTime :=
  if h < 24 then some { t with hour := h } else none

/-- `chrono`'s `Timelike::with_minute`. -/
def NaiveTime.with_minute (t : NaiveTime) (m : Nat) : Option NaiveTime :=
  if m < 60 then some { t with minute := m } else none

/-- `chrono`'s `Timelike::with_second`. -/
def NaiveTime.with_second (t : NaiveTime) (s : Nat) : Option NaiveTime :=
  if s < 60 then some { t with second := s } else none

/-- `ClockDragged` of `time_picker.rs`: which clock hand is being dragged. -/
inductive ClockDragged where
  | None
  | Hour
  | Minute
  | Second
deriving DecidableEq, Repr, Fintype

/-- `Focus` of `time_picker.rs`: the focusable elements of the overlay. -/
inductive Focus where
  | None
  | Overlay
  | DigitalHour
  | DigitalMinute
  | DigitalSecond
  | Cancel
  | Submit
deriving DecidableEq, Repr, Fintype

/-- `Focus::next` (time_picker.rs, lines 927-943). -/
def Focus.next (f : Focus) (show_seconds : Bool) : Focus :=
  match f with
  | Focus.None => Focus.Overlay
  | Focus.Overlay => Focus.DigitalHour
  | Focus.DigitalHour => Focus.DigitalMinute
  | Focus.DigitalMinute =>
    if show_seconds then Focus.DigitalSecond else Focus.Cancel
  | Focus.DigitalSecond => Focus.Cancel
  | Focus.Cancel => Focus.Submit
  | Focus.Submit => Focus.Overlay

/-- `Focus::previous` (time_picker.rs, lines 946-962). -/
def Focus.previous (f : Focus) (show_seconds : Bool) : Focus :=
  match f with
  | Focus.None => Focus.None
  | Focus.Overlay => Focus.Submit
  | Focus.DigitalHour => Focus.Overlay
  | Focus.DigitalMinute => Focus.DigitalHour
  | Focus.DigitalSecond => Focus.DigitalMinute
  | Focus.Cancel =>
    if show_seconds then Focus.DigitalSecond else Focus.DigitalMinute
  | Focus.Submit => Focus.Cancel

/-- Iterating `Focus::next` `k` times. -/
def Focus.nextIter (k : Nat) (f : Focus) (show_seconds : Bool) : Focus :=
  match k with
  | 0 => f
  | k + 1 => Focus.nextIter k (f.next show_seconds) show_seconds

/-- The cycle of focusable elements the spec claims `Focus::next` traverses
starting from `Overlay`: every element other than `None`, with
`DigitalSecond` present exactly when seconds are shown. -/
def focusCycle (show_seconds : Bool) : List Focus :=
  if show_seconds then
    [Focus.Overlay, Focus.DigitalHour, Focus.DigitalMinute,
     Focus.DigitalSecond, Focus.Cancel, Focus.Submit]
  else
    [Focus.Overlay, Focus.DigitalHour, Focus.DigitalMinute,
     Focus.Cancel, Focus.Submit]

/-- The overlay `State` of `time_picker.rs` (lines 857-867).  The canvas cache
`clock_cache` is modelled by the number of times it has been cleared, and the
keyboard modifiers by their shift flag (the only one the file reads). -/
structure State where
  time : NaiveTime
  clock_cache_needs_clearance : Bool
  clock_cache_clears : Nat
  use_24h : Bool
  show_seconds : Bool
  clock_dragged : ClockDragged
  focus : Focus
  keyboard_modifiers_shift : Bool
deriving DecidableEq, Repr

/-- The events the two widget files distinguish: left-mouse press/release,
finger press/lift/loss, and anything else (cursor motion, keyboard, ...),
which both files treat uniformly through wildcard match arms. -/
inductive Event where
  | MouseLeftPressed
  | MouseLeftReleased
  | FingerPressed
  | FingerLifted
  | FingerLost
  | Other
deriving DecidableEq, Repr, Fintype

/-- The events of the `ButtonReleased(Left) | FingerLifted | FingerLost`
match arms of `on_event_clock`. -/
def isReleaseEvent (ev : Event) : Bool :=
  match ev with
  | Event.MouseLeftReleased | Event.FingerLifted | Event.FingerLost => true
  | _ => false

/-- The events of the `ButtonPressed(Left) | FingerPressed` match arms. -/
def isPressEvent (ev : Event) : Bool :=
  match ev with
  | Event.MouseLeftPressed | Event.FingerPressed => true
  | _ => false

/-- `iced_native::event::Status`. -/
inductive EventStatus where
  | Ignored
  | Captured
deriving DecidableEq, Repr, Fintype

/-- `event::Status::merge`: `Captured` dominates. -/
def EventStatus.merge (a b : EventStatus) : EventStatus :=
  match a with
  | EventStatus.Ignored => b
  | EventStatus.Captured => EventStatus.Captured

/-- The clock radius of `on_event_clock` (line 126):
`clock_bounds.width.min(clock_bounds.height) * 0.5`. -/
def clockRadius (bounds : Rectangle) : ℚ :=
  min bounds.width bounds.height * (1 / 2)

/-- The hour-hand ring radius (lines 130-142). -/
def hourRadius (geo : ClockExtern) (show_seconds : Bool) (radius : ℚ) : ℚ :=
  if show_seconds then radius * geo.HOUR_RADIUS_PERCENTAGE
  else radius * geo.HOUR_RADIUS_PERCENTAGE_NO_SECONDS

/-- The minute-hand ring radius (lines 130-142). -/
def minuteRadius (geo : ClockExtern) (show_seconds : Bool) (radius : ℚ) : ℚ :=
  if show_seconds then radius * geo.MINUTE_RADIUS_PERCENTAGE
  else radius * geo.MINUTE_RADIUS_PERCENTAGE_NO_SECONDS

/-- The second-hand ring radius (lines 130-142); `f32::MAX` without seconds. -/
def secondRadius (geo : ClockExtern) (show_seconds : Bool) (radius : ℚ) : ℚ :=
  if show_seconds then radius * geo.SECOND_RADIUS_PERCENTAGE
  else geo.f32_max

/-- The labelled ring radii handed to `nearest_radius` (lines 144-161). -/
def clockRadii (geo : ClockExtern) (show_seconds : Bool) (radius : ℚ) :
    List (ℚ × NearestRadius) :=
  if show_seconds then
    [(radius * geo.PERIOD_PERCENTAGE, NearestRadius.Period),
     (hourRadius geo show_seconds radius, NearestRadius.Hour),
     (minuteRadius geo show_seconds radius, NearestRadius.Minute),
     (secondRadius geo show_seconds radius, NearestRadius.Second)]
  else
    [(radius * geo.PERIOD_PERCENTAGE, NearestRadius.Period),
     (hourRadius geo show_seconds radius, NearestRadius.Hour),
     (minuteRadius geo show_seconds radius, NearestRadius.Minute)]

/-- `TimePickerOverlay::on_event_clock` (time_picker.rs, lines 102-261),
with the mutation of `self.state` threaded explicitly and `unwrap` embedded
by `Option` (a `none` result is a panic of the original code).  The first
step mirrors the cache-clearing prologue (lines 114-120); the `clicked` and
`dragged` steps mirror the two `match` statements (lines 163-209 and
211-245); outside the clock bounds only the release arms act (lines 248-258). -/
def on_event_clock (geo : ClockExtern) (st : State) (ev : Event)
    (bounds : Rectangle) (cursor : Point) : Option (State × EventStatus) :=
  let st1 :=
    if bounds.contains cursor then
      { st with clock_cache_needs_clearance := true,
                clock_cache_clears := st.clock_cache_clears + 1 }
    else if st.clock_cache_needs_clearance then
      { st with clock_cache_clears := st.clock_cache_clears + 1,
                clock_cache_needs_clearance := false }
    else st
  if bounds.contains cursor then
    let center := bounds.center
    let radius := clockRadius bounds
    let hour_radius := hourRadius geo st1.show_seconds radius
    let minute_radius := minuteRadius geo st1.show_seconds radius
    let second_radius := secondRadius geo st1.show_seconds radius
    let nearest := geo.nearest_radius (clockRadii geo st1.show_seconds radius)
      cursor center
    let clicked : Option (State × EventStatus) :=
      match ev with
      | Event.MouseLeftPressed | Event.FingerPressed =>
        match nearest with
        | NearestRadius.Period =>
          let ph := st1.time.hour12
          let pm := ph.1
          let hr0 := ph.2
          let hr := if hr0 = 12 then (if pm then 12 else 0) else hr0
          match st1.time.with_hour
              ((if pm = true ∧ hr ≠ 12 then hr else hr + 12) % 24) with
          | some t => some ({ st1 with time := t }, EventStatus.Captured)
          | none => none
        | NearestRadius.Hour =>
          some ({ st1 with focus := Focus.DigitalHour,
                           clock_dragged := ClockDragged.Hour },
                EventStatus.Captured)
        | NearestRadius.Minute =>
          some ({ st1 with focus := Focus.DigitalMinute,
                           clock_dragged := ClockDragged.Minute },
                EventStatus.Captured)
        | NearestRadius.Second =>
          some ({ st1 with focus := Focus.DigitalSecond,
                           clock_dragged := ClockDragged.Second },
                EventStatus.Captured)
        | NearestRadius.None => some (st1, EventStatus.Ignored)
      | Event.MouseLeftReleased | Event.FingerLifted | Event.FingerLost =>
        some ({ st1 with clock_dragged := ClockDragged.None },
              EventStatus.Captured)
      | _ => some (st1, EventStatus.Ignored)
    match clicked with
    | none => none
    | some (st2, clicked_status) =>
      let dragged : Option (State × EventStatus) :=
        match st2.clock_dragged with
        | ClockDragged.Hour =>
          let i := nearest_point (geo.circle_points hour_radius center 12)
            cursor
          let pm := st2.time.hour12.1
          match st2.time.with_hour ((i + if pm then 12 else 0) % 24) with
          | some t => some ({ st2 with time := t }, EventStatus.Captured)
          | none => none
        | ClockDragged.Minute =>
          let i := nearest_point (geo.circle_points minute_radius center 60)
            cursor
          match st2.time.with_minute i with
          | some t => some ({ st2 with time := t }, EventStatus.Captured)
          | none => none
        | ClockDragged.Second =>
          let i := nearest_point (geo.circle_points second_radius center 60)
            cursor
          match st2.time.with_second i with
          | some t => some ({ st2 with time := t }, EventStatus.Captured)
          | none => none
        | ClockDragged.None => some (st2, EventStatus.Ignored)
      match dragged with
      | none => none
      | some (st3, dragged_status) =>
        some (st3, clicked_status.merge dragged_status)
  else
    match ev with
    | Event.MouseLeftReleased | Event.FingerLifted | Event.FingerLost =>
      some ({ st1 with clock_dragged := ClockDragged.None },
            EventStatus.Captured)
    | _ => some (st1, EventStatus.Ignored)

/-- `crate::core::time::Period` (declared outside the sources; its variants
are the ones `on_event` constructs, lines 760-765). -/
inductive Period where
  | H24
  | Am
  | Pm
deriving DecidableEq, Repr, Fintype

/-- `crate::native::time_picker::Time`, the value handed to `on_submit`
(its two variants are the ones constructed in `on_event`, lines 767-780). -/
inductive Time where
  | Hm (hour : Nat) (minute : Nat) (period : Period)
  | Hms (hour : Nat) (minute : Nat) (second : Nat) (period : Period)
deriving DecidableEq, Repr

/-- The `Time` value `TimePickerOverlay::on_event` builds from the overlay
state when the submit button fires (time_picker.rs, lines 760-780). -/
def buildSubmitTime (st : State) : Time :=
  let hp : Nat × Period :=
    if st.use_24h then (st.time.hour, Period.H24)
    else
      let ph := st.time.hour12
      (ph.2, if ph.1 then Period.Pm else Period.Am)
  if st.show_seconds then
    Time.Hms hp.1 st.time.minute st.time.second hp.2
  else
    Time.Hm hp.1 st.time.minute hp.2

/-- The message-list effect of the tail of `TimePickerOverlay::on_event`
(lines 733-783): the cancel button appends its output (`cancel_messages`)
directly to the host list, the submit button writes into a private
`fake_messages` vector, and when that vector is non-empty exactly one
message, `on_submit` of the time built from the current state, is pushed. -/
def on_event_messages {M : Type} (st : State) (messages : List M)
    (cancel_messages : List M) (fake_messages : List M)
    (on_submit : Time → M) : List M :=
  messages ++ cancel_messages ++
    (if fake_messages.isEmpty then [] else [on_submit (buildSubmitTime st)])

/-- Rust's `format!("{:02}", n)` on a natural number. -/
def fmt2 (n : Nat) : String :=
  if n < 10 then "0" ++ toString n else toString n

/-- The texts of the digital-clock row built by `TimePickerOverlay::layout`
(time_picker.rs, lines 496-587), in visual order: the optional AM/PM
placeholders, the hour column, the separating colons, the minute column and
(when seconds are shown) the second column.  The source formats
`self.state.time.hour()` in all three numeric columns (lines 522, 545, 571). -/
def digital_clock_texts (st : State) : List String :=
  (if st.use_24h then [] else ["AM"]) ++
  [fmt2 st.time.hour, ":", fmt2 st.time.hour] ++
  (if st.show_seconds then [":", fmt2 st.time.hour] else []) ++
  (if st.use_24h then [] else ["AM"])

/-- `iced` `Length`. -/
inductive Length where
  | Fill
  | FillPortion (factor : Nat)
  | Shrink
  | Fixed (amount : ℚ)
deriving DecidableEq, Repr

/-- `iced` `Color` (rgba). -/
structure Color where
  r : ℚ
  g : ℚ
  b : ℚ
  a : ℚ
deriving DecidableEq, Repr

/-- Model of an `iced` `Element` (a type-erased widget): the interface the
Cupertino button uses.  `R` abstracts the renderer, `L` the layout `Limits`
and `N` the layout `Node` of the host framework. -/
structure Element (R L N : Type) where
  width : Length
  height : Length
  layout : R → L → N

/-- `CupertinoButton` (cupertino_button.rs, lines 36-51). -/
structure CupertinoButton (M R L N : Type) where
  on_pressed : Option M
  is_filled : Bool
  body : Element R L N
  colour : Option Color

/-- `Widget::width` for `CupertinoButton` (lines 125-127). -/
def CupertinoButton.width {M R L N : Type} (btn : CupertinoButton M R L N) :
    Length :=
  btn.body.width

/-- `Widget::height` for `CupertinoButton` (lines 128-130). -/
def CupertinoButton.height {M R L N : Type} (btn : CupertinoButton M R L N) :
    Length :=
  btn.body.height

/-- `Widget::layout` for `CupertinoButton` (lines 132-134). -/
def CupertinoButton.layout {M R L N : Type} (btn : CupertinoButton M R L N)
    (renderer : R) (limits : L) : N :=
  btn.body.layout renderer limits

/-- `Widget::on_event` for `CupertinoButton` (cupertino_button.rs, lines
199-238).  The shell is embedded as the list of published messages; the
cursor, which may have no position, defaults to the origin
(`unwrap_or_default`). -/
def CupertinoButton.on_event {M R L N : Type} (btn : CupertinoButton M R L N)
    (ev : Event) (bounds : Rectangle) (cursor : Option Point) :
    List M × EventStatus :=
  match ev with
  | Event.MouseLeftPressed | Event.FingerPressed =>
    match btn.on_pressed with
    | some msg =>
      let cur_pos := cursor.getD ⟨0, 0⟩
      let hit_x : Bool :=
        decide (bounds.x + 10 ≤ cur_pos.x ∧ cur_pos.x < bounds.x + bounds.width)
      let hit_y : Bool :=
        decide (bounds.y - 14 ≤ cur_pos.y ∧
          cur_pos.y < bounds.y + bounds.height - 10)
      if hit_x && hit_y then ([msg], EventStatus.Captured)
      else ([], EventStatus.Ignored)
    | none => ([], EventStatus.Ignored)
  | _ => ([], EventStatus.Ignored)

/-- The state after a click nearest the period ring: the cache is cleared and
marked for clearance and the time moves to the other half of the day,
`hour + 12 (mod 24)`, keeping minute and second. -/
def toggled (st : State) : State :=
  { st with clock_cache_needs_clearance := true,
            clock_cache_clears := st.clock_cache_clears + 1,
            time := ⟨(st.time.hour + 12) % 24, st.time.minute, st.time.second⟩ }

/-- Concrete external clock geometry used to exercise the theorems: the ring
points are laid out with gaps of four units along the horizontal axis, so
nearness is easy to read off.  (The percentage values are placeholders; no
theorem and no evaluation below depends on them.) -/
def geoW : ClockExtern :=
  { PERIOD_PERCENTAGE := 1 / 10
    HOUR_RADIUS_PERCENTAGE := 2 / 5
    MINUTE_RADIUS_PERCENTAGE := 13 / 20
    SECOND_RADIUS_PERCENTAGE := 9 / 10
    HOUR_RADIUS_PERCENTAGE_NO_SECONDS := 1 / 2
    MINUTE_RADIUS_PERCENTAGE_NO_SECONDS := 9 / 10
    f32_max := 10 ^ 38
    circle_points := fun _ _ n =>
      (List.range n).map (fun (k : Nat) => ⟨(k : ℚ) * 4, 0⟩)
    nearest_radius := fun _ _ _ => NearestRadius.None }

/-- `geoW` with a `nearest_radius` oracle that always answers the period
ring, used to exercise the period-click theorem. -/
def geoP : ClockExtern :=
  { geoW with nearest_radius := fun _ _ _ => NearestRadius.Period }

/-- A concrete clock canvas. -/
def boundsW : Rectangle := ⟨0, 0, 100, 100⟩

/-- A cursor inside `boundsW`, nearest to the point of index `0` of the
rings of `geoW`. -/
def cursorW : Point := ⟨1, 1⟩

/-- A cursor outside `boundsW`. -/
def cursorOut : Point := ⟨250, 250⟩

/-- A concrete overlay state: 05:07:09, hour hand being dragged. -/
def stW : State :=
  { time := ⟨5, 7, 9⟩
    clock_cache_needs_clearance := false
    clock_cache_clears := 0
    use_24h := false
    show_seconds := false
    clock_dragged := ClockDragged.Hour
    focus := Focus.None
    keyboard_modifiers_shift := false }

/-- `stW` with no drag in progress. -/
def stIdle : State := { stW with clock_dragged := ClockDragged.None }

/-- A concrete message constructor for the submit path. -/
def timeCode : Time → Nat := fun t =>
  match t with
  | Time.Hm h m _ => h * 100 + m
  | Time.Hms h m s _ => h * 10000 + m * 100 + s

/-- A concrete Cupertino button publishing the message `5`. -/
def btnW : CupertinoButton Nat Unit Unit Unit :=
  { on_pressed := some 5
    is_filled := false
    body := { width := Length.Shrink, height := Length.Shrink,
              layout := fun _ _ => () }
    colour := none }

theorem nearestPointAux_lt (c : Point) :
    ∀ (l : List Point) (i besti : Nat) (d : ℚ), besti < i →
      nearestPointAux c l i besti d < i + l.length := by
  intro l
  induction l with
  | nil => intro i besti d h; simpa [nearestPointAux] using h
  | cons p rest ih =>
    intro i besti d h
    simp only [nearestPointAux]
    by_cases hlt : distSq p c < d
    · simp only [hlt, if_true]
      have := ih (i + 1) i (distSq p c) (Nat.lt_succ_self i)
      simpa [Nat.add_comm, Nat.add_assoc, Nat.add_left_comm] using this
    · simp only [hlt, if_false]
      have := ih (i + 1) besti d (Nat.lt_succ_of_lt h)
      simpa [Nat.add_comm, Nat.add_assoc, Nat.add_left_comm] using this

/-- The index returned by `nearest_point` is a valid index of the list. -/
theorem nearest_point_lt_length (points : List Point) (c : Point)
    (h : points ≠ []) : nearest_point points c < points.length := by
  match points with
  | [] => exact absurd rfl h
  | p :: rest =>
    have := nearestPointAux_lt c rest 1 0 (distSq p c) Nat.one_pos
    simpa [nearest_point, Nat.add_comm] using this

/-- The focus cycle is closed under `Focus::next`. -/
theorem focusCycle_closed :
    ∀ (s : Bool) (f : Focus), f ∈ focusCycle s → Focus.next f s ∈ focusCycle s := by
  decide

/-- Iterates of `Focus::next` stay in the focus cycle. -/
theorem nextIter_mem (s : Bool) :
    ∀ (k : Nat) (f : Focus), f ∈ focusCycle s →
      Focus.nextIter k f s ∈ focusCycle s := by
  intro k
  induction k with
  | zero => intro f hf; simpa [Focus.nextIter] using hf
  | succ k ih => intro f hf; exact ih (f.next s) (focusCycle_closed s f hf)

/-- C3: For every `show_seconds` flag, `Focus::next` maps `None` to `Overlay`,
`Overlay` to `DigitalHour`, `DigitalHour` to `DigitalMinute`, `DigitalMinute`
to `DigitalSecond` when seconds are shown and to `Cancel` otherwise,
`DigitalSecond` to `Cancel`, `Cancel` to `Submit` and `Submit` to `Overlay`;
`next` never returns `None`, and iterating `next` from `Overlay` cycles
through all focusable elements, visiting `DigitalSecond` exactly when
`show_seconds` is true. -/
theorem claim_C3_focus_next_cycle :
    ∀ s : Bool,
      Focus.next Focus.None s = Focus.Overlay ∧
      Focus.next Focus.Overlay s = Focus.DigitalHour ∧
      Focus.next Focus.DigitalHour s = Focus.DigitalMinute ∧
      Focus.next Focus.DigitalMinute s =
        (if s then Focus.DigitalSecond else Focus.Cancel) ∧
      Focus.next Focus.DigitalSecond s = Focus.Cancel ∧
      Focus.next Focus.Cancel s = Focus.Submit ∧
      Focus.next Focus.Submit s = Focus.Overlay ∧
      (∀ f : Focus, Focus.next f s ≠ Focus.None) ∧
      (∀ k : Nat, Focus.nextIter k Focus.Overlay s ∈ focusCycle s) ∧
      (∀ f : Focus, f ∈ focusCycle s →
        ∃ k : Nat, Focus.nextIter k Focus.Overlay s = f) ∧
      ((∃ k : Nat, Focus.nextIter k Focus.Overlay s = Focus.DigitalSecond) ↔
        s = true) := by
  intro s
  refine ⟨by cases s <;> rfl, rfl, rfl, by cases s <;> rfl, rfl, rfl, rfl,
    by cases s <;> decide, ?_, ?_, ?_⟩
  · intro k
    exact nextIter_mem s k Focus.Overlay (by cases s <;> decide)
  · intro f hf
    cases s with
    | false =>
      simp only [focusCycle, if_false, List.mem_cons, List.mem_singleton,
        Bool.false_eq_true, List.not_mem_nil, or_false] at hf
      rcases hf with h | h | h | h | h <;> subst h
      · exact ⟨0, rfl⟩
      · exact ⟨1, rfl⟩
      · exact ⟨2, rfl⟩
      · exact ⟨3, rfl⟩
      · exact ⟨4, rfl⟩
    | true =>
      simp only [focusCycle, if_true, List.mem_cons, List.mem_singleton,
        List.not_mem_nil, or_false] at hf
      rcases hf with h | h | h | h | h | h <;> subst h
      · exact ⟨0, rfl⟩
      · exact ⟨1, rfl⟩
      · exact ⟨2, rfl⟩
      · exact ⟨3, rfl⟩
      · exact ⟨4, rfl⟩
      · exact ⟨5, rfl⟩
  · constructor
    · rintro ⟨k, hk⟩
      cases s with
      | true => rfl
      | false =>
        have hmem := nextIter_mem false k Focus.Overlay (by decide)
        rw [hk] at hmem
        exact absurd hmem (by decide)
    · intro hs
      subst hs
      exact ⟨3, rfl⟩

/-- C4 counterexample: the claimed identity `previous (next f s) s = f` fails
at `f = DigitalSecond`, `s = false`: the round trip lands on
`DigitalMinute`. -/
theorem claim_C4_counterexample :
    Focus.previous (Focus.next Focus.DigitalSecond false) false =
      Focus.DigitalMinute ∧
    Focus.DigitalMinute ≠ Focus.DigitalSecond := by
  decide

/-- C4 (amended): focus cycling is reversible for every focus value other
than `None` that is part of the cycle — when `show_seconds` is false the
value `DigitalSecond` (which is then not focusable) must also be excluded:
for all other `f`, `previous (next f s) s = f` and
`next (previous f s) s = f`. -/
theorem claim_C4_focus_cycle_reversible (f : Focus) (s : Bool)
    (h1 : f ≠ Focus.None) (h2 : s = false → f ≠ Focus.DigitalSecond) :
    Focus.previous (Focus.next f s) s = f ∧
    Focus.next (Focus.previous f s) s = f := by
  revert f s
  decide

/-- C4 witness: the amended reversibility at `f = Overlay`, `s = false`. -/
theorem claim_C4_witness :
    Focus.previous (Focus.next Focus.Overlay false) false = Focus.Overlay ∧
    Focus.next (Focus.previous Focus.Overlay false) false = Focus.Overlay :=
  claim_C4_focus_cycle_reversible Focus.Overlay false (by decide)
    (fun _ => by decide)

/-- C7: at the state 01:23:45 (24-hour mode, seconds shown) the digital
readout of `layout` renders the hour, `"01"`, in all three numeric columns,
while the time's minute and second format as `"23"` and `"45"`: the minute
and second columns do not display the time's minute and second. -/
theorem claim_C7_minute_column_shows_hour :
    digital_clock_texts
      { time := ⟨1, 23, 45⟩, clock_cache_needs_clearance := false,
        clock_cache_clears := 0, use_24h := true, show_seconds := true,
        clock_dragged := ClockDragged.None, focus := Focus.None,
        keyboard_modifiers_shift := false } =
      ["01", ":", "01", ":", "01"] ∧
    fmt2 23 = "23" ∧ fmt2 45 = "45" ∧
    ("01" : String) ≠ "23" ∧ ("01" : String) ≠ "45" := by
  refine ⟨rfl, rfl, rfl, by decide, by decide⟩

/-- C8: `CupertinoButton` delegates its geometry to the inner text element:
`width` and `height` return the body's width and height, and `layout` returns
exactly the node produced by the body's own layout for the same renderer and
limits. -/
theorem claim_C8_button_delegates_geometry {M R L N : Type}
    (btn : CupertinoButton M R L N) (renderer : R) (limits : L) :
    btn.width = btn.body.width ∧ btn.height = btn.body.height ∧
    btn.layout renderer limits = btn.body.layout renderer limits :=
  ⟨rfl, rfl, rfl⟩

/-- C1: when the submit button fires (its private message vector is
non-empty) and the cancel button contributed nothing, `on_event` appends
exactly one message to the host's list: `on_submit` applied to the `Time`
value built from the overlay state's current time — `Hms` when seconds are
shown, `Hm` otherwise, with the 24-hour value and period `H24` in 24-hour
mode and the 12-hour value with period `Pm`/`Am` according to the time's
half of day otherwise. -/
theorem claim_C1_submit_appends_one_message {M : Type} (st : State)
    (messages : List M) (fake_messages : List M) (on_submit : Time → M)
    (hfake : fake_messages ≠ []) :
    on_event_messages st messages [] fake_messages on_submit =
      messages ++ [on_submit (buildSubmitTime st)] ∧
    buildSubmitTime st =
      (if st.show_seconds then
        Time.Hms (if st.use_24h then st.time.hour else st.time.hour12.2)
          st.time.minute st.time.second
          (if st.use_24h then Period.H24
           else if st.time.hour12.1 then Period.Pm else Period.Am)
      else
        Time.Hm (if st.use_24h then st.time.hour else st.time.hour12.2)
          st.time.minute
          (if st.use_24h then Period.H24
           else if st.time.hour12.1 then Period.Pm else Period.Am)) := by
  have hne : fake_messages.isEmpty = false := by
    cases fake_messages with
    | nil => exact absurd rfl hfake
    | cons a l => rfl
  constructor
  · simp [on_event_messages, hne]
  · cases hs : st.show_seconds <;> cases hu : st.use_24h <;>
      simp [buildSubmitTime, hs, hu]

/-- C1 witness: a concrete submit press appends exactly the one submit
message. -/
theorem claim_C1_witness :
    ([(1 : Nat)] ≠ ([] : List Nat)) ∧
    on_event_messages stW [0] [] [1] timeCode =
      [0] ++ [timeCode (buildSubmitTime stW)] :=
  ⟨by decide,
   (claim_C1_submit_appends_one_message stW [0] [1] timeCode (by decide)).1⟩

/-- C10: `CupertinoButton::on_event` publishes the `on_pressed` message and
returns `Captured` exactly when the event is a left mouse press or finger
press, `on_pressed` is `Some`, and the cursor lies in the half-open
rectangle `[x + 10, x + width) × [y - 14, y + height - 10)`; in every other
case (including every event while `on_pressed` is `None`) it publishes
nothing and returns `Ignored`. -/
theorem claim_C10_button_active_region {M R L N : Type}
    (btn : CupertinoButton M R L N) (ev : Event) (bounds : Rectangle)
    (p : Point) :
    (∀ m, btn.on_pressed = some m → isPressEvent ev = true →
      bounds.x + 10 ≤ p.x → p.x < bounds.x + bounds.width →
      bounds.y - 14 ≤ p.y → p.y < bounds.y + bounds.height - 10 →
      btn.on_event ev bounds (some p) = ([m], EventStatus.Captured)) ∧
    (isPressEvent ev = false →
      btn.on_event ev bounds (some p) = ([], EventStatus.Ignored)) ∧
    (btn.on_pressed = none →
      btn.on_event ev bounds (some p) = ([], EventStatus.Ignored)) ∧
    (¬(bounds.x + 10 ≤ p.x ∧ p.x < bounds.x + bounds.width ∧
        bounds.y - 14 ≤ p.y ∧ p.y < bounds.y + bounds.height - 10) →
      btn.on_event ev bounds (some p) = ([], EventStatus.Ignored)) := by
  refine ⟨?_, ?_, ?_, ?_⟩
  · intro m hm hev h1 h2 h3 h4
    cases ev <;> simp_all [CupertinoButton.on_event, isPressEvent, Option.getD]
  · intro hev
    cases ev <;> simp_all [CupertinoButton.on_event, isPressEvent]
  · intro hm
    cases ev <;> simp [CupertinoButton.on_event, hm]
  · intro hmiss
    cases ev <;> cases hbp : btn.on_pressed <;>
      simp_all [CupertinoButton.on_event, isPressEvent, Option.getD]

/-- C10 witness: a left press at `(50, 50)` inside the offset active region
of a `100 × 100` button publishes the button's message and captures. -/
theorem claim_C10_witness :
    btnW.on_event Event.MouseLeftPressed boundsW (some ⟨50, 50⟩) =
      ([5], EventStatus.Captured) :=
  (claim_C10_button_active_region btnW Event.MouseLeftPressed boundsW
    ⟨50, 50⟩).1 5 rfl rfl (by norm_num [boundsW]) (by norm_num [boundsW])
    (by norm_num [boundsW]) (by norm_num [boundsW])

/-- C5: hit-testing confines clock edits to the clock region.  For every
event whose cursor lies outside the clock canvas bounds, `on_event_clock`
leaves `state.time` (and the focus and flags) unchanged; the only fields
that change are `clock_dragged` (reset to `None` on a release/lift/lost
event), the clock cache (cleared once if it was marked) and its clearance
flag (reset). -/
theorem claim_C5_outside_clock_frame (geo : ClockExtern) (st : State)
    (ev : Event) (bounds : Rectangle) (cursor : Point)
    (hout : bounds.contains cursor = false) :
    on_event_clock geo st ev bounds cursor =
      some
        ({ st with
            clock_cache_needs_clearance := false,
            clock_cache_clears :=
              if st.clock_cache_needs_clearance then st.clock_cache_clears + 1
              else st.clock_cache_clears,
            clock_dragged :=
              if isReleaseEvent ev then ClockDragged.None
              else st.clock_dragged },
         if isReleaseEvent ev then EventStatus.Captured
         else EventStatus.Ignored) := by
  obtain ⟨t, nc, cl, u, ss, cd, fo, km⟩ := st
  cases ev <;> cases nc <;> simp [on_event_clock, hout, isReleaseEvent]

/-- C5 witness: a motion event with the cursor outside the clock bounds
leaves the state (a drag in progress included) entirely unchanged. -/
theorem claim_C5_witness :
    boundsW.contains cursorOut = false ∧
    on_event_clock geoW stW Event.Other boundsW cursorOut =
      some (stW, EventStatus.Ignored) := by
  have hout : boundsW.contains cursorOut = false := by
    norm_num [Rectangle.contains, boundsW, cursorOut]
  refine ⟨hout, ?_⟩
  have h := claim_C5_outside_clock_frame geoW stW Event.Other boundsW
    cursorOut hout
  simpa [stW, isReleaseEvent] using h

/-- C6: the drag state never survives a release.  After `on_event_clock`
processes a left-mouse release, a finger-lifted or a finger-lost event,
`state.clock_dragged` is `ClockDragged::None`, whether the cursor is inside
or outside the clock bounds (and the handler does not panic). -/
theorem claim_C6_release_clears_drag (geo : ClockExtern) (st : State)
    (ev : Event) (bounds : Rectangle) (cursor : Point)
    (hrel : isReleaseEvent ev = true) :
    (on_event_clock geo st ev bounds cursor).map
      (fun r => r.1.clock_dragged) = some ClockDragged.None := by
  cases ev <;> simp [isReleaseEvent] at hrel <;>
    cases hin : bounds.contains cursor <;>
    simp [on_event_clock, hin]

/-- C6 witness: a left-mouse release with the cursor inside the clock bounds
ends the hour drag of `stW`. -/
theorem claim_C6_witness :
    isReleaseEvent Event.MouseLeftReleased = true ∧
    (on_event_clock geoW stW Event.MouseLeftReleased boundsW cursorW).map
      (fun r => r.1.clock_dragged) = some ClockDragged.None :=
  ⟨rfl, claim_C6_release_clears_drag geoW stW Event.MouseLeftReleased boundsW
    cursorW rfl⟩

/-- A press nearest the period ring with no drag in progress replaces the
time's hour by `hour + 12 (mod 24)` (minute and second unchanged), clears
the cache and captures the event (time_picker.rs, lines 163-184). -/
theorem period_click_toggles (geo : ClockExtern) (st : State) (ev : Event)
    (bounds : Rectangle) (cursor : Point)
    (hpress : isPressEvent ev = true)
    (hin : bounds.contains cursor = true)
    (hnr : geo.nearest_radius
        (clockRadii geo st.show_seconds (clockRadius bounds)) cursor
        bounds.center = NearestRadius.Period)
    (hdrag : st.clock_dragged = ClockDragged.None)
    (hhour : st.time.hour < 24) :
    on_event_clock geo st ev bounds cursor =
      some (toggled st, EventStatus.Captured) := by
  obtain ⟨⟨h, m, s⟩, nc, cl, u, ss, cd, fo, km⟩ := st
  simp only at hdrag
  subst hdrag
  cases ev <;> simp [isPressEvent] at hpress <;>
    interval_cases h <;>
    simp [on_event_clock, hin, hnr, toggled, NaiveTime.hour12,
      NaiveTime.with_hour, EventStatus.merge]

/-- C9: clicking nearest the period ring toggles AM/PM as an involution.
For every current time (with no drag in progress), the click replaces the
time by one whose 24-hour value is `hour + 12 (mod 24)` with minute and
second unchanged, and performing the click twice restores the original
time. -/
theorem claim_C9_period_click_involution (geo : ClockExtern) (st : State)
    (ev : Event) (bounds : Rectangle) (cursor : Point)
    (hpress : isPressEvent ev = true)
    (hin : bounds.contains cursor = true)
    (hnr : geo.nearest_radius
        (clockRadii geo st.show_seconds (clockRadius bounds)) cursor
        bounds.center = NearestRadius.Period)
    (hdrag : st.clock_dragged = ClockDragged.None)
    (hhour : st.time.hour < 24) :
    on_event_clock geo st ev bounds cursor =
      some (toggled st, EventStatus.Captured) ∧
    (toggled st).time =
      ⟨(st.time.hour + 12) % 24, st.time.minute, st.time.second⟩ ∧
    on_event_clock geo (toggled st) ev bounds cursor =
      some (toggled (toggled st), EventStatus.Captured) ∧
    (toggled (toggled st)).time = st.time := by
  refine ⟨period_click_toggles geo st ev bounds cursor hpress hin hnr hdrag
      hhour, rfl, ?_, ?_⟩
  · exact period_click_toggles geo (toggled st) ev bounds cursor hpress hin
      (by simpa [toggled] using hnr) (by simp [toggled, hdrag])
      (by simp only [toggled]; exact Nat.mod_lt _ (by norm_num))
  · have hmod : ((st.time.hour + 12) % 24 + 12) % 24 = st.time.hour := by
      omega
    simp [toggled, hmod]

/-- C9 witness: clicking the period ring at 05:07:09 yields 17:07:09, and a
second click restores 05:07:09. -/
theorem claim_C9_witness :
    stIdle.time.hour = 5 ∧
    on_event_clock geoP stIdle Event.MouseLeftPressed boundsW cursorW =
      some (toggled stIdle, EventStatus.Captured) ∧
    (toggled stIdle).time = ⟨17, 7, 9⟩ ∧
    (toggled (toggled stIdle)).time = stIdle.time := by
  have h := claim_C9_period_click_involution geoP stIdle
    Event.MouseLeftPressed boundsW cursorW rfl
    (by norm_num [Rectangle.contains, boundsW, cursorW]) rfl rfl (by decide)
  exact ⟨rfl, h.1, by simp [toggled, stIdle, stW], h.2.2.2⟩

/-- C2 (amended): while a clock hand is being dragged and the cursor is
inside the clock canvas bounds, each event other than a left-mouse
press/release or finger press/lift/loss (i.e. each event that neither starts
nor ends a click, embedded as `Event.Other`) maps the cursor to a time: for
an hour drag the hour becomes `(i + 12 if the current time is PM else i)
mod 24` where `i < 12` is the index of the nearest of the 12 points of the
hour circle; for a minute (second) drag the minute (second) becomes the
index `i < 60` of the nearest of the 60 points of the minute (second)
circle; the remaining time fields keep their values and the status is
`Captured`.  (The original claim quantified over every event; a release
event ends the drag without moving the time — see the counterexample.) -/
theorem claim_C2_drag_maps_nearest_point (geo : ClockExtern) (st : State)
    (bounds : Rectangle) (cursor : Point)
    (hwf : ∀ r c n, (geo.circle_points r c n).length = n)
    (hin : bounds.contains cursor = true) :
    (st.clock_dragged = ClockDragged.Hour →
      on_event_clock geo st Event.Other bounds cursor =
        some
          ({ st with
              clock_cache_needs_clearance := true,
              clock_cache_clears := st.clock_cache_clears + 1,
              time :=
                ⟨(nearest_point
                     (geo.circle_points
                       (hourRadius geo st.show_seconds (clockRadius bounds))
                       bounds.center 12) cursor +
                   if st.time.hour12.1 then 12 else 0) % 24,
                  st.time.minute, st.time.second⟩ },
           EventStatus.Captured)) ∧
    (st.clock_dragged = ClockDragged.Minute →
      on_event_clock geo st Event.Other bounds cursor =
        some
          ({ st with
              clock_cache_needs_clearance := true,
              clock_cache_clears := st.clock_cache_clears + 1,
              time :=
                ⟨st.time.hour,
                  nearest_point
                    (geo.circle_points
                      (minuteRadius geo st.show_seconds (clockRadius bounds))
                      bounds.center 60) cursor,
                  st.time.second⟩ },
           EventStatus.Captured)) ∧
    (st.clock_dragged = ClockDragged.Second →
      on_event_clock geo st Event.Other bounds cursor =
        some
          ({ st with
              clock_cache_needs_clearance := true,
              clock_cache_clears := st.clock_cache_clears + 1,
              time :=
                ⟨st.time.hour, st.time.minute,
                  nearest_point
                    (geo.circle_points
                      (secondRadius geo st.show_seconds (clockRadius bounds))
                      bounds.center 60) cursor⟩ },
           EventStatus.Captured)) ∧
    nearest_point
      (geo.circle_points
        (hourRadius geo st.show_seconds (clockRadius bounds))
        bounds.center 12) cursor < 12 ∧
    nearest_point
      (geo.circle_points
        (minuteRadius geo st.show_seconds (clockRadius bounds))
        bounds.center 60) cursor < 60 ∧
    nearest_point
      (geo.circle_points
        (secondRadius geo st.show_seconds (clockRadius bounds))
        bounds.center 60) cursor < 60 := by
  have key : ∀ (r : ℚ) (n : Nat), 0 < n →
      nearest_point (geo.circle_points r bounds.center n) cursor < n := by
    intro r n hn
    have hlen := hwf r bounds.center n
    have hne : geo.circle_points r bounds.center n ≠ [] := by
      intro hnil
      rw [hnil] at hlen
      simp at hlen
      omega
    have hlt := nearest_point_lt_length (geo.circle_points r bounds.center n)
      cursor hne
    rwa [hlen] at hlt
  have hm24 : ∀ x : Nat, x % 24 < 24 := fun x => Nat.mod_lt _ (by norm_num)
  refine ⟨?_, ?_, ?_, key _ 12 (by norm_num), key _ 60 (by norm_num),
    key _ 60 (by norm_num)⟩
  · intro hd
    simp [on_event_clock, hin, hd, NaiveTime.with_hour, hm24,
      EventStatus.merge]
  · intro hd
    have h60 := key (minuteRadius geo st.show_seconds (clockRadius bounds))
      60 (by norm_num)
    simp [on_event_clock, hin, hd, NaiveTime.with_minute, h60,
      EventStatus.merge]
  · intro hd
    have h60 := key (secondRadius geo st.show_seconds (clockRadius bounds))
      60 (by norm_num)
    simp [on_event_clock, hin, hd, NaiveTime.with_second, h60,
      EventStatus.merge]

/-- C2 counterexample: a left-mouse release while the hour hand is being
dragged and the cursor is inside the clock bounds leaves the time unchanged
at hour 5 (it only ends the drag), whereas the claim, read over every event,
demands the hour become the nearest-point value 0. -/
theorem claim_C2_counterexample :
    stW.clock_dragged = ClockDragged.Hour ∧
    boundsW.contains cursorW = true ∧
    on_event_clock geoW stW Event.MouseLeftReleased boundsW cursorW =
      some ({ stW with clock_cache_needs_clearance := true,
                       clock_cache_clears := 1,
                       clock_dragged := ClockDragged.None },
            EventStatus.Captured) ∧
    stW.time.hour = 5 ∧
    nearest_point
      (geoW.circle_points
        (hourRadius geoW stW.show_seconds (clockRadius boundsW))
        boundsW.center 12) cursorW = 0 ∧
    (5 : Nat) ≠ (0 + if stW.time.hour12.1 then 12 else 0) % 24 := by
  refine ⟨rfl, by norm_num [Rectangle.contains, boundsW, cursorW], ?_, rfl,
    ?_, ?_⟩
  · norm_num [on_event_clock, Rectangle.contains, geoW, boundsW, cursorW,
      stW, EventStatus.merge]
  · norm_num [geoW, boundsW, cursorW, nearest_point, nearestPointAux,
      distSq, List.range_succ]
  · norm_num [stW, NaiveTime.hour12]

/-- C2 witness: a motion event during an hour drag at cursor `(1, 1)` moves
05:07:09 to 00:07:09 (nearest hour point has index 0, time is AM). -/
theorem claim_C2_witness :
    boundsW.contains cursorW = true ∧
    stW.clock_dragged = ClockDragged.Hour ∧
    on_event_clock geoW stW Event.Other boundsW cursorW =
      some ({ stW with clock_cache_needs_clearance := true,
                       clock_cache_clears := 1,
                       time := ⟨0, 7, 9⟩ }, EventStatus.Captured) := by
  have hin : boundsW.contains cursorW = true := by
    norm_num [Rectangle.contains, boundsW, cursorW]
  have h := (claim_C2_drag_maps_nearest_point geoW stW boundsW cursorW
    (by intro r c n; simp only [geoW, List.length_map, List.length_range])
    hin).1 rfl
  refine ⟨hin, rfl, ?_⟩
  rw [h]
  norm_num [geoW, stW, boundsW, cursorW, nearest_point, nearestPointAux,
    distSq, List.range_succ, NaiveTime.hour12]
